import Mathlib

/-!
Verification development for the ai-learning-catalog repository.

The public listing sites (docs/app.js, github-pages/app.js and the paginated
variant) and the admin SPA (frontend/app.js, frontend/app/page.tsx) are
shallowly embedded below.  JavaScript strings are modelled as Lean strings;
the JavaScript string operations used by the code (toLowerCase, includes,
trim, split(',')) are given explicit executable models on the underlying
character lists so that concrete inputs evaluate inside proofs.  The backend
repository (create / update / upsertFromEnrichment) is not part of the
source tree that was provided, so it is modelled from the specification
text; those definitions carry a doc comment starting with
"Modelled from the spec:".
-/

/-! ## JavaScript string operation models -/

/-- Model of JavaScript String.prototype.toLowerCase (per-character lowering). -/
def jsToLower (s : String) : String := ⟨s.data.map Char.toLower⟩

/-- Helper for jsIncludes: Boolean test that the first character list is a
leading segment of the second. -/
def prefixOfCL : List Char → List Char → Bool
  | [], _ => true
  | _ :: _, [] => false
  | a :: as, b :: bs => a == b && prefixOfCL as bs

/-- Helper for jsIncludes: Boolean test that the first character list occurs
contiguously inside the second. -/
def infixOfCL (pat : List Char) : List Char → Bool
  | [] => prefixOfCL pat []
  | c :: t => prefixOfCL pat (c :: t) || infixOfCL pat t

/-- Model of JavaScript hay.includes(pat): substring containment. -/
def jsIncludes (hay pat : String) : Bool := infixOfCL pat.data hay.data

/-- Characters removed from both ends by jsTrim. -/
def trimCL (l : List Char) : List Char :=
  ((l.dropWhile Char.isWhitespace).reverse.dropWhile Char.isWhitespace).reverse

/-- Model of JavaScript String.prototype.trim. -/
def jsTrim (s : String) : String := ⟨trimCL s.data⟩

/-- Helper for jsSplitComma: split a character list at every comma. -/
def splitCommaCL : List Char → List (List Char)
  | [] => [[]]
  | c :: t =>
    if c = ',' then [] :: splitCommaCL t
    else
      match splitCommaCL t with
      | [] => [[c]]
      | h :: r => (c :: h) :: r

/-- Model of JavaScript s.split(','). -/
def jsSplitComma (s : String) : List String := (splitCommaCL s.data).map (fun l => ⟨l⟩)

theorem infixOfCL_nil_pat (l : List Char) : infixOfCL [] l = true := by
  induction l with
  | nil => rfl
  | cons c t ih => simp [infixOfCL, prefixOfCL]

theorem jsIncludes_empty_pat (hay : String) : jsIncludes hay "" = true := by
  simpa [jsIncludes] using infixOfCL_nil_pat hay.data

theorem jsIncludes_empty_hay (pat : String) : jsIncludes "" pat = true ↔ pat = "" := by
  cases pat with
  | mk data =>
    cases data with
    | nil => simp [jsIncludes, infixOfCL, prefixOfCL]
    | cons c t =>
      have h1 : jsIncludes "" ⟨c :: t⟩ = false := rfl
      rw [h1]
      simp only [Bool.false_eq_true, false_iff]
      exact fun h => absurd (congrArg String.data h) (by simp)

theorem jsToLower_empty : jsToLower "" = "" := rfl

theorem jsToLower_eq_empty_iff (s : String) : jsToLower s = "" ↔ s = "" := by
  cases s with
  | mk data =>
    cases data with
    | nil => simp [jsToLower]
    | cons c t =>
      constructor
      · intro h
        have h2 := congrArg String.data h
        simp [jsToLower] at h2
      · intro h
        exact absurd (congrArg String.data h) (by simp)

/-! ## Public listing site: course rows and filtering

A row of data/courses.json as consumed by docs/app.js, github-pages/app.js
and the paginated variant.  The JSON keys are capitalised in the data file
("Course Name", "Skill Level", ...); they are rendered as Lean field names
here.  All fields are strings; a missing/empty field is the empty string,
which is exactly what the JavaScript truthiness guards test. -/

structure PubCourse where
  provider : String
  link : String
  courseName : String
  summary : String
  track : String
  platform : String
  handsOn : String
  skillLevel : String
  difficulty : String
  length : String
  evidence : String
deriving DecidableEq

/-- Predicate of filterCourses (github-pages/app.js lines 196-227; the same
logic appears at docs/app.js lines 154-185 and in the paginated variant,
which omit the truthiness guard on the course name - equivalent under the
total-string model).  searchTerm is the already lower-cased search input. -/
def courseMatches (searchTerm provider skillLevel difficulty track : String)
    (c : PubCourse) : Bool :=
  let searchMatch := (searchTerm == "") ||
    (c.courseName != "" && jsIncludes (jsToLower c.courseName) searchTerm) ||
    (c.provider != "" && jsIncludes (jsToLower c.provider) searchTerm) ||
    (c.summary != "" && jsIncludes (jsToLower c.summary) searchTerm) ||
    (c.track != "" && jsIncludes (jsToLower c.track) searchTerm)
  let providerMatch := (provider == "") || (c.provider == provider)
  let skillMatch := (skillLevel == "") || (c.skillLevel == skillLevel)
  let difficultyMatch := (difficulty == "") || (c.difficulty == difficulty)
  let trackMatch := (track == "") || (c.track != "" && jsIncludes c.track track)
  searchMatch && providerMatch && skillMatch && difficultyMatch && trackMatch

/-- Embedding of filterCourses: the search input is lower-cased once and the
loaded courses are filtered by courseMatches. -/
def filterCourses (courses : List PubCourse) (searchInput provider skillLevel difficulty track : String) :
    List PubCourse :=
  courses.filter (courseMatches (jsToLower searchInput) provider skillLevel difficulty track)

theorem jsIncludes_empty_of_ne (t : String) (ht : t ≠ "") : jsIncludes "" t = false := by
  cases hj : jsIncludes "" t
  · rfl
  · exact absurd ((jsIncludes_empty_hay t).mp hj) ht

theorem search_guard_iff (f st : String) (hst : ¬ st = "") :
    ((¬ f = "") ∧ jsIncludes (jsToLower f) st = true) ↔ jsIncludes (jsToLower f) st = true := by
  constructor
  · exact fun h => h.2
  · intro h
    refine ⟨?_, h⟩
    intro hf
    rw [hf, jsToLower_empty, jsIncludes_empty_of_ne st hst] at h
    cases h

theorem track_guard_iff (f t : String) (ht : ¬ t = "") :
    ((¬ f = "") ∧ jsIncludes f t = true) ↔ jsIncludes f t = true := by
  constructor
  · exact fun h => h.2
  · intro h
    refine ⟨?_, h⟩
    intro hf
    rw [hf, jsIncludes_empty_of_ne t ht] at h
    cases h

theorem searchClause_iff (st : String) (c : PubCourse) :
    ((st == "") ||
     (c.courseName != "" && jsIncludes (jsToLower c.courseName) st) ||
     (c.provider != "" && jsIncludes (jsToLower c.provider) st) ||
     (c.summary != "" && jsIncludes (jsToLower c.summary) st) ||
     (c.track != "" && jsIncludes (jsToLower c.track) st)) = true ↔
      (jsIncludes (jsToLower c.courseName) st = true ∨
       jsIncludes (jsToLower c.provider) st = true ∨
       jsIncludes (jsToLower c.summary) st = true ∨
       jsIncludes (jsToLower c.track) st = true) := by
  simp only [Bool.or_eq_true, Bool.and_eq_true, beq_iff_eq, bne_iff_ne, ne_eq]
  by_cases hst : st = ""
  · subst hst
    simp [jsIncludes_empty_pat]
  · rw [search_guard_iff _ _ hst, search_guard_iff _ _ hst,
      search_guard_iff _ _ hst, search_guard_iff _ _ hst]
    simp only [hst, false_or]
    tauto

theorem eqClause_iff (x y : String) :
    ((x == "") || (y == x)) = true ↔ (x = "" ∨ y = x) := by
  simp

theorem trackClause_iff (t : String) (c : PubCourse) :
    ((t == "") || (c.track != "" && jsIncludes c.track t)) = true ↔
      (t = "" ∨ jsIncludes c.track t = true) := by
  simp only [Bool.or_eq_true, Bool.and_eq_true, beq_iff_eq, bne_iff_ne, ne_eq]
  by_cases ht : t = ""
  · subst ht
    simp
  · rw [track_guard_iff _ _ ht]

theorem courseMatches_iff (st p sk d t : String) (c : PubCourse) :
    courseMatches st p sk d t c = true ↔
      ((jsIncludes (jsToLower c.courseName) st = true ∨
        jsIncludes (jsToLower c.provider) st = true ∨
        jsIncludes (jsToLower c.summary) st = true ∨
        jsIncludes (jsToLower c.track) st = true) ∧
       (p = "" ∨ c.provider = p) ∧
       (sk = "" ∨ c.skillLevel = sk) ∧
       (d = "" ∨ c.difficulty = d) ∧
       (t = "" ∨ jsIncludes c.track t = true)) := by
  simp only [courseMatches, Bool.and_eq_true]
  rw [searchClause_iff, eqClause_iff, eqClause_iff, eqClause_iff, trackClause_iff]
  tauto

/-- C1 (amended): membership in the filtered result is characterised by the
case-insensitive substring search across the name, provider, summary and
track fields, exact-equality matching for the provider, skill-level and
difficulty filters, and substring matching for the track filter. -/
theorem C1_filterCourses_amended (courses : List PubCourse)
    (searchInput provider skillLevel difficulty track : String) (c : PubCourse) :
    c ∈ filterCourses courses searchInput provider skillLevel difficulty track ↔
      c ∈ courses ∧
      (jsIncludes (jsToLower c.courseName) (jsToLower searchInput) = true ∨
       jsIncludes (jsToLower c.provider) (jsToLower searchInput) = true ∨
       jsIncludes (jsToLower c.summary) (jsToLower searchInput) = true ∨
       jsIncludes (jsToLower c.track) (jsToLower searchInput) = true) ∧
      (provider = "" ∨ c.provider = provider) ∧
      (skillLevel = "" ∨ c.skillLevel = skillLevel) ∧
      (difficulty = "" ∨ c.difficulty = difficulty) ∧
      (track = "" ∨ jsIncludes c.track track = true) := by
  rw [filterCourses, List.mem_filter, courseMatches_iff]

/-- Concrete course used to refute the exact-match reading of the track
filter: its track field is "Machine Learning". -/
def cMachineLearning : PubCourse :=
  { provider := "DeepLearn", link := "https://x.test/ml", courseName := "ML Basics",
    summary := "Learn ML", track := "Machine Learning", platform := "Web",
    handsOn := "Yes", skillLevel := "Novice", difficulty := "Easy",
    length := "2 Hours", evidence := "Badge" }

/-- C1 (counterexample): with the track filter set to "Learning", the code
keeps a course whose track field is "Machine Learning", although the claim
requires exact equality for the track filter - so the filtered result is not
the set the claim describes. -/
theorem C1_counterexample :
    cMachineLearning ∈ filterCourses [cMachineLearning] "" "" "" "" "Learning" ∧
    ¬ ("Learning" = "" ∨ cMachineLearning.track = "Learning") := by
  decide

/-! ## Sorting model for the filter dropdowns

JavaScript Array.prototype.sort() without a comparator orders strings
lexicographically by code units; leCL is that order on character lists
(compared through the characters' code points). -/

def leCL : List Char → List Char → Bool
  | [], _ => true
  | _ :: _, [] => false
  | a :: as, b :: bs => if a.toNat = b.toNat then leCL as bs else decide (a.toNat < b.toNat)

theorem leCL_total : ∀ a b, leCL a b = true ∨ leCL b a = true := by
  intro a
  induction a with
  | nil => intro b; exact Or.inl rfl
  | cons x xs ih =>
    intro b
    cases b with
    | nil => exact Or.inr rfl
    | cons y ys =>
      by_cases h : x.toNat = y.toNat
      · have h' : y.toNat = x.toNat := h.symm
        rcases ih ys with h1 | h1
        · left
          simp [leCL, h, h1]
        · right
          simp [leCL, h', h1]
      · by_cases hlt : x.toNat < y.toNat
        · left
          simp [leCL, h, hlt]
        · right
          have h2 : ¬ y.toNat = x.toNat := fun e => h e.symm
          have h3 : y.toNat < x.toNat := by omega
          simp [leCL, h2, h3]

theorem leCL_trans : ∀ a b c, leCL a b = true → leCL b c = true → leCL a c = true := by
  intro a
  induction a with
  | nil => intro b c _ _; rfl
  | cons x xs ih =>
    intro b c h1 h2
    cases b with
    | nil => simp [leCL] at h1
    | cons y ys =>
      cases c with
      | nil => simp [leCL] at h2
      | cons z zs =>
        simp only [leCL] at h1 h2 ⊢
        by_cases hxy : x.toNat = y.toNat
        · by_cases hyz : y.toNat = z.toNat
          · have hxz : x.toNat = z.toNat := hxy.trans hyz
            rw [if_pos hxy] at h1
            rw [if_pos hyz] at h2
            rw [if_pos hxz]
            exact ih ys zs h1 h2
          · rw [if_pos hxy] at h1
            rw [if_neg hyz] at h2
            have hlt : y.toNat < z.toNat := of_decide_eq_true h2
            have hxz : ¬ x.toNat = z.toNat := by omega
            rw [if_neg hxz]
            exact decide_eq_true (by omega)
        · rw [if_neg hxy] at h1
          have hx : x.toNat < y.toNat := of_decide_eq_true h1
          by_cases hyz : y.toNat = z.toNat
          · have hxz : ¬ x.toNat = z.toNat := by omega
            rw [if_neg hxz]
            exact decide_eq_true (by omega)
          · rw [if_neg hyz] at h2
            have hy : y.toNat < z.toNat := of_decide_eq_true h2
            have hxz : ¬ x.toNat = z.toNat := by omega
            rw [if_neg hxz]
            exact decide_eq_true (by omega)

/-- Boolean form of the JavaScript default string sort order. -/
def strLe (a b : String) : Bool := leCL a.data b.data

/-- Propositional form of strLe, used to state sortedness. -/
def sLe (a b : String) : Prop := strLe a b = true

instance : DecidableRel sLe := fun a b => inferInstanceAs (Decidable (strLe a b = true))

instance : IsTotal String sLe := ⟨fun a b => leCL_total a.data b.data⟩

instance : IsTrans String sLe := ⟨fun a b c => leCL_trans a.data b.data c.data⟩

/-- Model of the sorted output of a JavaScript sort on distinct strings: the
result of any correct sort of a duplicate-free list under a total order is
the unique sorted arrangement, so insertion sort is used. -/
def sortStrs (l : List String) : List String := l.insertionSort sLe

theorem sortStrs_sorted (l : List String) : List.Sorted sLe (sortStrs l) :=
  List.sorted_insertionSort sLe l

theorem sortStrs_perm (l : List String) : (sortStrs l).Perm l :=
  List.perm_insertionSort sLe l

theorem sortStrs_mem (l : List String) (a : String) : a ∈ sortStrs l ↔ a ∈ l :=
  (sortStrs_perm l).mem_iff

theorem sortStrs_nodup (l : List String) (h : l.Nodup) : (sortStrs l).Nodup :=
  ((sortStrs_perm l).nodup_iff).mpr h

/-! ## Filter dropdown population (populateFilters, github-pages/app.js 42-101)

The docs/app.js and paginated variants (populateFilters at docs/app.js 37-47
and the paginated file 41-51) compute only the provider list, with the same
expression as providerFilterOptions below. -/

/-- Distinct non-empty provider values, sorted (populateFilters). -/
def providerFilterOptions (courses : List PubCourse) : List String :=
  sortStrs (((courses.map (fun c => c.provider)).filter (fun p => p != "")).dedup)

/-- Distinct non-empty skill-level values, sorted (populateFilters). -/
def skillFilterOptions (courses : List PubCourse) : List String :=
  sortStrs (((courses.map (fun c => c.skillLevel)).filter (fun s => s != "")).dedup)

/-- Distinct non-empty difficulty values, sorted (populateFilters). -/
def difficultyFilterOptions (courses : List PubCourse) : List String :=
  sortStrs (((courses.map (fun c => c.difficulty)).filter (fun d => d != "")).dedup)

/-- Distinct trimmed comma-segments of the non-empty track fields, sorted
(populateFilters: courses with a truthy Track contribute every segment of
Track.split(','), trimmed, to the option set). -/
def trackFilterOptions (courses : List PubCourse) : List String :=
  sortStrs (((courses.filter (fun c => c.track != "")).flatMap
    (fun c => (jsSplitComma c.track).map jsTrim)).dedup)

/-- C8 (amended): for each filterable field the dropdown offers each value
once (no duplicates), in ascending sorted order; the provider, skill-level
and difficulty lists hold exactly the distinct non-empty values of the
corresponding field among the loaded courses, and the track list holds
exactly the distinct trimmed comma-segments of the non-empty track fields
(such a segment can be the empty string). -/
theorem C8_populateFilters_amended (courses : List PubCourse) :
    (List.Sorted sLe (providerFilterOptions courses) ∧
      (providerFilterOptions courses).Nodup ∧
      ∀ a, a ∈ providerFilterOptions courses ↔ (a ≠ "" ∧ ∃ c ∈ courses, c.provider = a)) ∧
    (List.Sorted sLe (skillFilterOptions courses) ∧
      (skillFilterOptions courses).Nodup ∧
      ∀ a, a ∈ skillFilterOptions courses ↔ (a ≠ "" ∧ ∃ c ∈ courses, c.skillLevel = a)) ∧
    (List.Sorted sLe (difficultyFilterOptions courses) ∧
      (difficultyFilterOptions courses).Nodup ∧
      ∀ a, a ∈ difficultyFilterOptions courses ↔ (a ≠ "" ∧ ∃ c ∈ courses, c.difficulty = a)) ∧
    (List.Sorted sLe (trackFilterOptions courses) ∧
      (trackFilterOptions courses).Nodup ∧
      ∀ a, a ∈ trackFilterOptions courses ↔
        ∃ c ∈ courses, c.track ≠ "" ∧ a ∈ (jsSplitComma c.track).map jsTrim) := by
  refine ⟨⟨sortStrs_sorted _, sortStrs_nodup _ (List.nodup_dedup _), ?_⟩,
    ⟨sortStrs_sorted _, sortStrs_nodup _ (List.nodup_dedup _), ?_⟩,
    ⟨sortStrs_sorted _, sortStrs_nodup _ (List.nodup_dedup _), ?_⟩,
    ⟨sortStrs_sorted _, sortStrs_nodup _ (List.nodup_dedup _), ?_⟩⟩
  · intro a
    rw [providerFilterOptions, sortStrs_mem, List.mem_dedup]
    simp only [List.mem_filter, List.mem_map, bne_iff_ne, ne_eq]
    tauto
  · intro a
    rw [skillFilterOptions, sortStrs_mem, List.mem_dedup]
    simp only [List.mem_filter, List.mem_map, bne_iff_ne, ne_eq]
    tauto
  · intro a
    rw [difficultyFilterOptions, sortStrs_mem, List.mem_dedup]
    simp only [List.mem_filter, List.mem_map, bne_iff_ne, ne_eq]
    tauto
  · intro a
    rw [trackFilterOptions, sortStrs_mem, List.mem_dedup]
    simp only [List.mem_flatMap, List.mem_filter, bne_iff_ne, ne_eq]
    tauto

/-- Concrete course whose track field is a lone comma, so splitting on
commas yields two empty segments. -/
def cTrackComma : PubCourse :=
  { provider := "P", link := "https://x.test/c", courseName := "C",
    summary := "S", track := ",", platform := "", handsOn := "",
    skillLevel := "Novice", difficulty := "Easy", length := "", evidence := "" }

/-- C8 (counterexample): for the course whose track field is ",", the track
dropdown offers the empty string, although the claim says only distinct
non-empty values of the field are made available. -/
theorem C8_counterexample :
    cTrackComma.track = "," ∧ "" ∈ trackFilterOptions [cTrackComma] := by
  decide

/-! ## Pagination (the paginated listing variant)

State of the paginated site: the filtered course list together with the
mutable globals currentPage, itemsPerPage and totalPages.  currentPage is an
Int because page numbers typed into the jump box are arbitrary integers. -/

structure PgState where
  filtered : List PubCourse
  currentPage : Int
  itemsPerPage : Nat
  totalPages : Nat

/-- Math.ceil(length / itemsPerPage) for natural inputs (itemsPerPage > 0). -/
def totalPagesOf (len ipp : Nat) : Nat := (len + ipp - 1) / ipp

/-- Embedding of updatePagination (lines 54-67): recompute totalPages and
clamp currentPage into range. -/
def updatePagination (s : PgState) : PgState :=
  let tp := totalPagesOf s.filtered.length s.itemsPerPage
  let cp := if s.currentPage > (tp : Int) ∧ 0 < tp then (tp : Int)
            else if s.currentPage < 1 then 1 else s.currentPage
  { s with totalPages := tp, currentPage := cp }

/-- Embedding of jumpToPage (lines 243-260): an in-range page number is
adopted and the pagination recomputed; anything else leaves the state alone
(the code only resets the input box). -/
def jumpToPage (s : PgState) (pageNumber : Int) : PgState :=
  if 1 ≤ pageNumber ∧ pageNumber ≤ (s.totalPages : Int) then
    updatePagination { s with currentPage := pageNumber }
  else s

/-- Embedding of the ArrowLeft branch of setupKeyboardNavigation
(lines 488-509). -/
def keyArrowLeft (s : PgState) : PgState :=
  if 1 < s.currentPage then
    updatePagination { s with currentPage := s.currentPage - 1 }
  else s

/-- Embedding of the ArrowRight branch of setupKeyboardNavigation
(lines 488-509). -/
def keyArrowRight (s : PgState) : PgState :=
  if s.currentPage < (s.totalPages : Int) then
    updatePagination { s with currentPage := s.currentPage + 1 }
  else s

/-- Embedding of displayCourses (lines 263-292): slice of the filtered list
for the current page (empty grid when nothing matched). -/
def displayCourses (s : PgState) : List PubCourse :=
  if s.filtered.length = 0 then []
  else
    let startIndex := ((s.currentPage - 1) * (s.itemsPerPage : Int)).toNat
    let endIndex := min (startIndex + s.itemsPerPage) s.filtered.length
    (s.filtered.drop startIndex).take (endIndex - startIndex)

/-- Slice l[a..b) of a list, as the pagination claim states it. -/
def listSlice (l : List PubCourse) (a b : Nat) : List PubCourse :=
  (l.drop a).take (b - a)

/-- Pagination invariant: totalPages reflects the filtered list and, when
there is at least one page, currentPage lies between 1 and totalPages. -/
def pgInv (s : PgState) : Prop :=
  s.totalPages = totalPagesOf s.filtered.length s.itemsPerPage ∧
  (0 < s.totalPages → 1 ≤ s.currentPage ∧ s.currentPage ≤ (s.totalPages : Int))

theorem totalPagesOf_ceil (len ipp : Nat) (h : 0 < ipp) :
    len ≤ totalPagesOf len ipp * ipp ∧ totalPagesOf len ipp * ipp < len + ipp := by
  have hdm := Nat.div_add_mod (len + ipp - 1) ipp
  have hmlt : (len + ipp - 1) % ipp < ipp := Nat.mod_lt _ h
  rw [totalPagesOf]
  set q := (len + ipp - 1) / ipp with hq
  set r := (len + ipp - 1) % ipp with hr
  set m := ipp * q with hm
  have hm2 : q * ipp = m := by rw [hm, Nat.mul_comm]
  rw [hm2]
  omega

theorem updatePagination_inv (s : PgState) : pgInv (updatePagination s) := by
  unfold updatePagination pgInv
  set tp := totalPagesOf s.filtered.length s.itemsPerPage with htp
  by_cases h1 : s.currentPage > (tp : Int) ∧ 0 < tp
  · simp only [if_pos h1]
    exact ⟨trivial, fun hp => ⟨by exact_mod_cast h1.2, le_refl _⟩⟩
  · simp only [if_neg h1]
    by_cases h2 : s.currentPage < 1
    · simp only [if_pos h2]
      exact ⟨trivial, fun hp => ⟨le_refl _, by exact_mod_cast Nat.one_le_iff_ne_zero.mpr (Nat.pos_iff_ne_zero.mp hp)⟩⟩
    · simp only [if_neg h2]
      refine ⟨trivial, fun hp => ⟨by omega, ?_⟩⟩
      rcases not_and_or.mp h1 with h3 | h3
      · omega
      · exact absurd hp h3

theorem jumpToPage_inv (s : PgState) (p : Int) (h : pgInv s) : pgInv (jumpToPage s p) := by
  unfold jumpToPage
  by_cases hc : 1 ≤ p ∧ p ≤ (s.totalPages : Int)
  · rw [if_pos hc]
    exact updatePagination_inv _
  · rw [if_neg hc]
    exact h

theorem keyArrowLeft_inv (s : PgState) (h : pgInv s) : pgInv (keyArrowLeft s) := by
  unfold keyArrowLeft
  by_cases hc : 1 < s.currentPage
  · rw [if_pos hc]
    exact updatePagination_inv _
  · rw [if_neg hc]
    exact h

theorem keyArrowRight_inv (s : PgState) (h : pgInv s) : pgInv (keyArrowRight s) := by
  unfold keyArrowRight
  by_cases hc : s.currentPage < (s.totalPages : Int)
  · rw [if_pos hc]
    exact updatePagination_inv _
  · rw [if_neg hc]
    exact h

theorem jumpToPage_out_of_range (s : PgState) (p : Int)
    (h : p < 1 ∨ (s.totalPages : Int) < p) : jumpToPage s p = s := by
  unfold jumpToPage
  rw [if_neg (by omega)]

theorem displayCourses_slice (s : PgState) (h : 1 ≤ s.currentPage) :
    displayCourses s = listSlice s.filtered
      ((s.currentPage.toNat - 1) * s.itemsPerPage)
      (min (s.currentPage.toNat * s.itemsPerPage) s.filtered.length) := by
  simp only [displayCourses, listSlice]
  by_cases h0 : s.filtered.length = 0
  · rw [if_pos h0, h0]
    simp
  · rw [if_neg h0]
    have hk : 1 ≤ s.currentPage.toNat := by omega
    have h1 : ((s.currentPage - 1) * (s.itemsPerPage : Int)).toNat
        = (s.currentPage.toNat - 1) * s.itemsPerPage := by
      have hcast : s.currentPage - 1 = ((s.currentPage.toNat - 1 : Nat) : Int) := by omega
      rw [hcast, ← Nat.cast_mul, Int.toNat_natCast]
    rw [h1]
    have h2 : (s.currentPage.toNat - 1) * s.itemsPerPage + s.itemsPerPage
        = s.currentPage.toNat * s.itemsPerPage := by
      have hk1 : s.currentPage.toNat - 1 + 1 = s.currentPage.toNat := by omega
      calc (s.currentPage.toNat - 1) * s.itemsPerPage + s.itemsPerPage
          = (s.currentPage.toNat - 1 + 1) * s.itemsPerPage := by rw [Nat.succ_mul]
        _ = s.currentPage.toNat * s.itemsPerPage := by rw [hk1]
    rw [h2]

/-- C9: after recomputing pages the pagination invariant holds (totalPages is
the ceiling of the filtered count over the page size, characterised by the
two bounds, and when positive the current page lies between 1 and
totalPages); page jumps and keyboard navigation preserve the invariant; an
out-of-range jump leaves the state unchanged; and the displayed slice is
exactly filteredCourses from (currentPage-1)*itemsPerPage up to
min(currentPage*itemsPerPage, length). -/
theorem C9_pagination_invariant (s : PgState) (p : Int) :
    pgInv (updatePagination s) ∧
    (pgInv s → pgInv (jumpToPage s p)) ∧
    (pgInv s → pgInv (keyArrowLeft s)) ∧
    (pgInv s → pgInv (keyArrowRight s)) ∧
    ((p < 1 ∨ (s.totalPages : Int) < p) → jumpToPage s p = s) ∧
    (0 < s.itemsPerPage →
      s.filtered.length ≤ totalPagesOf s.filtered.length s.itemsPerPage * s.itemsPerPage ∧
      totalPagesOf s.filtered.length s.itemsPerPage * s.itemsPerPage
        < s.filtered.length + s.itemsPerPage) ∧
    (1 ≤ s.currentPage →
      displayCourses s = listSlice s.filtered
        ((s.currentPage.toNat - 1) * s.itemsPerPage)
        (min (s.currentPage.toNat * s.itemsPerPage) s.filtered.length)) :=
  ⟨updatePagination_inv s, jumpToPage_inv s p, keyArrowLeft_inv s, keyArrowRight_inv s,
    jumpToPage_out_of_range s p, totalPagesOf_ceil s.filtered.length s.itemsPerPage,
    displayCourses_slice s⟩

/-- Concrete pagination state used by the C9 witness. -/
def pgExample : PgState :=
  { filtered := [cMachineLearning], currentPage := 1, itemsPerPage := 12, totalPages := 1 }

theorem pgExample_inv : pgInv pgExample := by
  unfold pgInv
  exact ⟨rfl, fun _ => ⟨by decide, by decide⟩⟩

/-- C9 witness: the pagination theorem instantiated at a concrete state with
every hypothesis discharged by evaluation. -/
theorem C9_pagination_invariant_witness :
    pgInv (updatePagination pgExample) ∧
    pgInv (jumpToPage pgExample 5) ∧
    pgInv (keyArrowLeft pgExample) ∧
    pgInv (keyArrowRight pgExample) ∧
    jumpToPage pgExample 5 = pgExample ∧
    (pgExample.filtered.length ≤
        totalPagesOf pgExample.filtered.length pgExample.itemsPerPage * pgExample.itemsPerPage ∧
      totalPagesOf pgExample.filtered.length pgExample.itemsPerPage * pgExample.itemsPerPage
        < pgExample.filtered.length + pgExample.itemsPerPage) ∧
    displayCourses pgExample = listSlice pgExample.filtered
      ((pgExample.currentPage.toNat - 1) * pgExample.itemsPerPage)
      (min (pgExample.currentPage.toNat * pgExample.itemsPerPage) pgExample.filtered.length) := by
  obtain ⟨h1, h2, h3, h4, h5, h6, h7⟩ := C9_pagination_invariant pgExample 5
  exact ⟨h1, h2 pgExample_inv, h3 pgExample_inv, h4 pgExample_inv, h5 (by decide),
    h6 (by decide), h7 (by decide)⟩

/-! ## Admin SPA: course form values and defaults

CourseFormValues mirrors the type of the same name in frontend/app/page.tsx
(lines 7-19); the same snake_case keys are the form element names in
frontend/app.js. -/

structure CourseFormValues where
  provider : String
  link : String
  course_name : String
  summary : String
  track : String
  platform : String
  hands_on : String
  skill_level : String
  difficulty : String
  length : String
  evidence_of_completion : String
deriving DecidableEq

/-- Names of the course form fields, used to quantify over fields. -/
inductive CField where
  | provider | link | course_name | summary | track | platform
  | hands_on | skill_level | difficulty | length | evidence_of_completion
deriving DecidableEq

/-- Field projection of CourseFormValues by field name. -/
def getField (v : CourseFormValues) : CField → String
  | .provider => v.provider
  | .link => v.link
  | .course_name => v.course_name
  | .summary => v.summary
  | .track => v.track
  | .platform => v.platform
  | .hands_on => v.hands_on
  | .skill_level => v.skill_level
  | .difficulty => v.difficulty
  | .length => v.length
  | .evidence_of_completion => v.evidence_of_completion

/-- Embedding of defaultCourseValues (frontend/app/page.tsx lines 126-138). -/
def defaultCourseValues : CourseFormValues :=
  { provider := "", link := "", course_name := "", summary := "", track := "",
    platform := "", hands_on := "Unknown", skill_level := "Unknown",
    difficulty := "Unknown", length := "0 Hours",
    evidence_of_completion := "Unknown" }

/-- Embedding of makeFormDefaults (page.tsx line 150): a fresh copy of the
defaults; used as the modal form state on initialisation and by
handleCloseModal (lines 407-415), which runs on Cancel/Close and after a
successful submit. -/
def makeFormDefaults : CourseFormValues := defaultCourseValues

/-- Embedding of the defaultValues map of frontend/app.js (lines 25-33):
overriding the five sentinel-bearing fields of a form state. -/
def applyDefaultValues (v : CourseFormValues) : CourseFormValues :=
  { v with
    hands_on := "Unknown"
    skill_level := "Unknown"
    difficulty := "Unknown"
    length := "0 Hours"
    evidence_of_completion := "Unknown" }

/-- The form state produced by the HTML form.reset() call: all inputs revert
to their initial (empty) values.  The admin page's HTML is not part of the
provided sources; empty initial inputs are the standard form markup. -/
def emptyFormValues : CourseFormValues :=
  { provider := "", link := "", course_name := "", summary := "", track := "",
    platform := "", hands_on := "", skill_level := "", difficulty := "",
    length := "", evidence_of_completion := "" }

/-- Embedding of resetForm (frontend/app.js lines 81-94): form.reset()
followed by writing the defaultValues map into the named inputs.  It runs on
initialisation, after every successful submit, and on Cancel. -/
def resetForm (_current : CourseFormValues) : CourseFormValues :=
  applyDefaultValues emptyFormValues

/-- C5: every course form reset - the initial state, the state installed by
handleCloseModal after a successful submit or cancel in the React admin page,
and the resetForm result in the plain-JS admin page - carries the literal
sentinel "Unknown" in hands_on, skill_level, difficulty and
evidence_of_completion and the literal "0 Hours" in length; none of these
fields is the empty string (null does not arise: all fields are total
strings). -/
theorem C5_reset_defaults (f : CourseFormValues) :
    makeFormDefaults.hands_on = "Unknown" ∧
    makeFormDefaults.skill_level = "Unknown" ∧
    makeFormDefaults.difficulty = "Unknown" ∧
    makeFormDefaults.evidence_of_completion = "Unknown" ∧
    makeFormDefaults.length = "0 Hours" ∧
    (resetForm f).hands_on = "Unknown" ∧
    (resetForm f).skill_level = "Unknown" ∧
    (resetForm f).difficulty = "Unknown" ∧
    (resetForm f).evidence_of_completion = "Unknown" ∧
    (resetForm f).length = "0 Hours" ∧
    "Unknown" ≠ "" ∧ "0 Hours" ≠ "" := by
  refine ⟨rfl, rfl, rfl, rfl, rfl, rfl, rfl, rfl, rfl, rfl, by decide, by decide⟩

/-! ## Admin SPA: enrichment submission -/

/-- The enrichment form state (page.tsx defaultEnrichValues, lines 142-146;
the same three named inputs exist in frontend/app.js). -/
structure EnrichFormValues where
  link : String
  provider : String
  courseName : String
deriving DecidableEq

/-- Request body built for POST /courses/enrich: link always present,
provider and courseName only when included. -/
structure EnrichPayload where
  link : String
  provider : Option String
  courseName : Option String
deriving DecidableEq

/-- Embedding of handleEnrichSubmit (page.tsx lines 476-522; the identical
validation and payload construction is the enrich-form submit handler of
frontend/app.js lines 220-269).  An error result means the handler returned
before any fetch; an ok result carries the request body that is sent. -/
def handleEnrichSubmit (d : EnrichFormValues) : Except String EnrichPayload :=
  if jsTrim d.link = "" then .error "Course URL is required"
  else .ok
    { link := jsTrim d.link,
      provider := if jsTrim d.provider = "" then none else some (jsTrim d.provider),
      courseName := if jsTrim d.courseName = "" then none else some (jsTrim d.courseName) }

/-- C6: a blank or whitespace-only link makes the enrich submission fail
with "Course URL is required" without building a request; otherwise the
request body holds the trimmed link, and the provider and courseName hints
exactly when their trimmed values are non-empty. -/
theorem C6_enrich_submit (d : EnrichFormValues) :
    (jsTrim d.link = "" → handleEnrichSubmit d = .error "Course URL is required") ∧
    (jsTrim d.link ≠ "" →
      handleEnrichSubmit d = .ok
        { link := jsTrim d.link,
          provider := if jsTrim d.provider = "" then none else some (jsTrim d.provider),
          courseName := if jsTrim d.courseName = "" then none else some (jsTrim d.courseName) } ∧
      (jsTrim d.provider = "" →
        (handleEnrichSubmit d).toOption.map EnrichPayload.provider = some none) ∧
      (jsTrim d.provider ≠ "" →
        (handleEnrichSubmit d).toOption.map EnrichPayload.provider = some (some (jsTrim d.provider))) ∧
      (jsTrim d.courseName = "" →
        (handleEnrichSubmit d).toOption.map EnrichPayload.courseName = some none) ∧
      (jsTrim d.courseName ≠ "" →
        (handleEnrichSubmit d).toOption.map EnrichPayload.courseName = some (some (jsTrim d.courseName)))) := by
  constructor
  · intro h
    simp [handleEnrichSubmit, h]
  · intro h
    refine ⟨by simp [handleEnrichSubmit, h], ?_, ?_, ?_, ?_⟩
    · intro hp
      simp [handleEnrichSubmit, h, hp, Except.toOption]
    · intro hp
      simp [handleEnrichSubmit, h, hp, Except.toOption]
    · intro hc
      simp [handleEnrichSubmit, h, hc, Except.toOption]
    · intro hc
      simp [handleEnrichSubmit, h, hc, Except.toOption]

/-- C6 witness: the theorem applied to a whitespace-only link and to a
submission with a provider hint but no course-name hint. -/
theorem C6_enrich_submit_witness :
    handleEnrichSubmit { link := "   ", provider := "X", courseName := "" }
      = .error "Course URL is required" ∧
    handleEnrichSubmit { link := " https://x.test/c ", provider := " Coursera ", courseName := "  " }
      = .ok { link := "https://x.test/c", provider := some "Coursera", courseName := none } := by
  constructor
  · exact (C6_enrich_submit _).1 (by decide)
  · have h := ((C6_enrich_submit { link := " https://x.test/c ", provider := " Coursera ", courseName := "  " }).2 (by decide)).1
    rw [h]
    rfl

/-! ## Admin SPA: error payload handling -/

/-- JSON values as they reach the error handlers after response.json(). -/
inductive JVal where
  | jnull : JVal
  | jbool : Bool → JVal
  | jnum : Int → JVal
  | jstr : String → JVal
  | jarr : List JVal → JVal
  | jobj : List (String × JVal) → JVal

/-- The string-valued detail field of a parsed error payload, when present
(the payload?.detail access of the handlers, kept only when
typeof payload.detail === 'string'). -/
def detailOf : Option JVal → Option String
  | some (.jobj fields) =>
    match fields.lookup "detail" with
    | some (.jstr s) => some s
    | _ => none
  | _ => none

/-- Embedding of extractErrorMessage (page.tsx lines 161-171; the identical
fallback chain is inlined in the submit handlers of frontend/app.js at lines
182-192 and 247-257).  The first argument is none when response.json()
threw, i.e. the body was not JSON. -/
def extractErrorMessage (parsed : Option JVal) (statusText : String) : String :=
  match detailOf parsed with
  | some s => s
  | none => if statusText = "" then "Request failed" else statusText

/-- C7: the surfaced message is the payload's string-valued detail field
whenever the body parsed as a JSON object carrying one; otherwise it is the
HTTP status text, or the generic "Request failed" when the status text is
empty.  The handler is a total function, so a malformed body (parsed = none)
never makes it fail; and detailOf finds a detail exactly when the body is an
object whose detail key holds a string. -/
theorem C7_extract_error_message (parsed : Option JVal) (statusText : String) :
    (∀ s, detailOf parsed = some s → extractErrorMessage parsed statusText = s) ∧
    (detailOf parsed = none → statusText ≠ "" →
      extractErrorMessage parsed statusText = statusText) ∧
    (detailOf parsed = none → statusText = "" →
      extractErrorMessage parsed statusText = "Request failed") ∧
    (∀ s, detailOf parsed = some s ↔
      ∃ fields, parsed = some (.jobj fields) ∧ fields.lookup "detail" = some (.jstr s)) := by
  refine ⟨?_, ?_, ?_, ?_⟩
  · intro s h
    simp [extractErrorMessage, h]
  · intro h hs
    simp [extractErrorMessage, h, hs]
  · intro h hs
    simp [extractErrorMessage, h, hs]
  · intro s
    constructor
    · intro h
      cases parsed with
      | none => simp [detailOf] at h
      | some v =>
        cases v with
        | jnull => simp [detailOf] at h
        | jbool b => simp [detailOf] at h
        | jnum n => simp [detailOf] at h
        | jstr t => simp [detailOf] at h
        | jarr xs => simp [detailOf] at h
        | jobj fields =>
          refine ⟨fields, rfl, ?_⟩
          simp only [detailOf] at h
          cases hl : fields.lookup "detail" with
          | none => rw [hl] at h; simp at h
          | some w =>
            rw [hl] at h
            cases w with
            | jnull => simp at h
            | jbool b => simp at h
            | jnum n => simp at h
            | jstr t => simp at h; rw [h]
            | jarr xs => simp at h
            | jobj fs => simp at h
    · rintro ⟨fields, hp, hl⟩
      rw [hp]
      simp only [detailOf, hl]

/-- C7 witness: the theorem applied to a detail-carrying body, to a
non-JSON body with a status text, and to a non-JSON body with an empty
status text. -/
theorem C7_extract_error_message_witness :
    extractErrorMessage (some (.jobj [("detail", .jstr "Course already exists")])) "Conflict"
      = "Course already exists" ∧
    extractErrorMessage none "Bad Gateway" = "Bad Gateway" ∧
    extractErrorMessage none "" = "Request failed" := by
  refine ⟨?_, ?_, ?_⟩
  · exact (C7_extract_error_message _ "Conflict").1 "Course already exists" rfl
  · exact (C7_extract_error_message none "Bad Gateway").2.1 rfl (by decide)
  · exact (C7_extract_error_message none "").2.2.1 rfl rfl

/-! ## Admin SPA: loadCourses payload normalisation (page.tsx lines 236-261) -/

/-- Digits of a decimal numeral folded into a natural number. -/
def digitsToNat (ds : List Char) : Nat := ds.foldl (fun a c => a * 10 + (c.toNat - 48)) 0

/-- Model of the JavaScript Number() coercion on strings, restricted to the
integer numerals relevant here: trimmed empty input is 0, an optionally
signed run of digits is its value, anything else is NaN (none).  Fractional,
hexadecimal and infinite numerals are outside the model. -/
def jsNumOfString (s : String) : Option Int :=
  match trimCL s.data with
  | [] => some 0
  | '-' :: ds =>
    if !ds.isEmpty && ds.all Char.isDigit then some (-(digitsToNat ds : Int)) else none
  | '+' :: ds =>
    if !ds.isEmpty && ds.all Char.isDigit then some ((digitsToNat ds : Int)) else none
  | ds =>
    if ds.all Char.isDigit then some ((digitsToNat ds : Int)) else none

/-- Number() on the modelled JSON values; array and object coercions (which
go through string conversion in JavaScript) are mapped to NaN. -/
def jsNumberOfJVal : JVal → Option Int
  | .jnull => some 0
  | .jbool b => some (if b then 1 else 0)
  | .jnum n => some n
  | .jstr s => jsNumOfString s
  | .jarr _ => none
  | .jobj _ => none

/-- Embedding of the versionValue computation: a number is kept as is;
otherwise Number(version ?? 1) || 1 (nullish version coerces from 1, a zero
or NaN coercion falls back to 1). -/
def versionValueOf : Option JVal → Int
  | some (.jnum n) => n
  | v =>
    match jsNumberOfJVal (match v with
      | none => JVal.jnum 1
      | some .jnull => JVal.jnum 1
      | some x => x) with
    | some n => if n = 0 then 1 else n
    | none => 1

/-- Embedding of the date normalisation: a non-empty string value is kept,
anything else is replaced by the fallback (new Date().toISOString() for
date_created, the normalised date_created for last_updated). -/
def normalizeDateField (raw : Option JVal) (fallback : String) : String :=
  match raw with
  | some (.jstr s) => if s = "" then fallback else s
  | _ => fallback

/-- An item of the GET /courses payload as the admin page receives it: the
bookkeeping properties may be absent or of any JSON type, and any subset of
the form fields may be present. -/
structure RawCourse where
  id : Option JVal
  version : Option JVal
  date_created : Option JVal
  last_updated : Option JVal
  fields : CField → Option String

/-- A normalised course as kept in the admin page state. -/
structure NormCourse where
  id : String
  version : Int
  date_created : String
  last_updated : String
  values : CourseFormValues

/-- Embedding of the id coercion: typeof course.id === 'string' ? id : ''. -/
def idStringOf : Option JVal → String
  | some (.jstr s) => s
  | _ => ""

/-- Spread of the raw fields over makeFormDefaults: present fields win,
missing fields come from the defaults. -/
def fillDefaults (f : CField → Option String) : CourseFormValues :=
  { provider := (f .provider).getD defaultCourseValues.provider
    link := (f .link).getD defaultCourseValues.link
    course_name := (f .course_name).getD defaultCourseValues.course_name
    summary := (f .summary).getD defaultCourseValues.summary
    track := (f .track).getD defaultCourseValues.track
    platform := (f .platform).getD defaultCourseValues.platform
    hands_on := (f .hands_on).getD defaultCourseValues.hands_on
    skill_level := (f .skill_level).getD defaultCourseValues.skill_level
    difficulty := (f .difficulty).getD defaultCourseValues.difficulty
    length := (f .length).getD defaultCourseValues.length
    evidence_of_completion := (f .evidence_of_completion).getD defaultCourseValues.evidence_of_completion }

/-- Embedding of the per-item normalisation inside loadCourses: compute the
id, version and dates, drop the item when the id is not a non-empty string,
otherwise build the normalised course over the form defaults. -/
def normalizeCourseItem (now : String) (raw : RawCourse) : Option NormCourse :=
  let id := idStringOf raw.id
  let versionValue := versionValueOf raw.version
  let dateCreated := normalizeDateField raw.date_created now
  let lastUpdated := normalizeDateField raw.last_updated dateCreated
  if id = "" then none
  else some
    { id := id, version := versionValue, date_created := dateCreated,
      last_updated := lastUpdated, values := fillDefaults raw.fields }

/-- Embedding of the payload.items normalisation of loadCourses: map each
item through normalizeCourseItem and keep the successes. -/
def loadCoursesNormalize (now : String) (items : List RawCourse) : List NormCourse :=
  items.filterMap (normalizeCourseItem now)

theorem getField_fillDefaults (f : CField → Option String) (fld : CField) :
    getField (fillDefaults f) fld = (f fld).getD (getField defaultCourseValues fld) := by
  cases fld <;> rfl

theorem normalizeDateField_ne (raw : Option JVal) (fallback : String) (h : fallback ≠ "") :
    normalizeDateField raw fallback ≠ "" := by
  cases raw with
  | none => simpa [normalizeDateField] using h
  | some v =>
    cases v with
    | jstr s =>
      by_cases hs : s = ""
      · simpa [normalizeDateField, hs] using h
      · simp [normalizeDateField, hs]
    | jnull => simpa [normalizeDateField] using h
    | jbool b => simpa [normalizeDateField] using h
    | jnum n => simpa [normalizeDateField] using h
    | jarr xs => simpa [normalizeDateField] using h
    | jobj fs => simpa [normalizeDateField] using h

theorem versionValueOf_str_nan (s : String) (h : jsNumOfString s = none) :
    versionValueOf (some (.jstr s)) = 1 := by
  simp [versionValueOf, jsNumberOfJVal, h]

/-- C10: an item of the /courses payload survives normalisation exactly when
its id is a non-empty string; every kept course keeps that id, has non-empty
date_created and last_updated strings, has every form field present (missing
ones filled from the defaults), has its version taken from a numeric version
property and defaulted to 1 when the property is absent, null or a
non-numeric string; and the normalised list holds exactly the normalised
survivors of the payload items. -/
theorem C10_loadCourses_normalisation (now : String) (items : List RawCourse)
    (raw : RawCourse) (c : NormCourse) (hnow : now ≠ "") :
    ((normalizeCourseItem now raw).isSome = true ↔
      ∃ s, raw.id = some (.jstr s) ∧ s ≠ "") ∧
    (normalizeCourseItem now raw = some c →
      c.id = idStringOf raw.id ∧ c.id ≠ "" ∧
      c.date_created ≠ "" ∧ c.last_updated ≠ "" ∧
      (∀ fld, getField c.values fld = (raw.fields fld).getD (getField defaultCourseValues fld)) ∧
      (raw.version = none → c.version = 1) ∧
      (raw.version = some .jnull → c.version = 1) ∧
      (∀ n, raw.version = some (.jnum n) → c.version = n) ∧
      (∀ s, raw.version = some (.jstr s) → jsNumOfString s = none → c.version = 1)) ∧
    (c ∈ loadCoursesNormalize now items ↔
      ∃ r ∈ items, normalizeCourseItem now r = some c) := by
  refine ⟨?_, ?_, ?_⟩
  · simp only [normalizeCourseItem]
    by_cases h : idStringOf raw.id = ""
    · rw [if_pos h]
      simp only [Option.isSome_none, Bool.false_eq_true, false_iff]
      rintro ⟨s, hs, hne⟩
      rw [hs] at h
      exact hne h
    · rw [if_neg h]
      simp only [Option.isSome_some, true_iff]
      cases hr : raw.id with
      | none => rw [hr] at h; exact absurd rfl h
      | some v =>
        cases v with
        | jstr s =>
          refine ⟨s, rfl, ?_⟩
          rw [hr] at h
          exact h
        | jnull => rw [hr] at h; exact absurd rfl h
        | jbool b => rw [hr] at h; exact absurd rfl h
        | jnum n => rw [hr] at h; exact absurd rfl h
        | jarr xs => rw [hr] at h; exact absurd rfl h
        | jobj fs => rw [hr] at h; exact absurd rfl h
  · intro hsome
    simp only [normalizeCourseItem] at hsome
    by_cases h : idStringOf raw.id = ""
    · rw [if_pos h] at hsome
      cases hsome
    · rw [if_neg h] at hsome
      have hc := Option.some.inj hsome
      subst hc
      refine ⟨rfl, h, normalizeDateField_ne _ _ hnow,
        normalizeDateField_ne _ _ (normalizeDateField_ne _ _ hnow),
        getField_fillDefaults _, ?_, ?_, ?_, ?_⟩
      · intro hv
        show versionValueOf raw.version = 1
        rw [hv]
        rfl
      · intro hv
        show versionValueOf raw.version = 1
        rw [hv]
        rfl
      · intro n hv
        show versionValueOf raw.version = n
        rw [hv]
        rfl
      · intro s hv hnan
        show versionValueOf raw.version = 1
        rw [hv]
        exact versionValueOf_str_nan s hnan
  · rw [loadCoursesNormalize]
    exact List.mem_filterMap

/-- Concrete raw payload item for the C10 witness: string id "abc",
non-numeric string version, empty date_created, absent last_updated, no form
fields present. -/
def rawExample : RawCourse :=
  { id := some (.jstr "abc"), version := some (.jstr "x1"),
    date_created := some (.jstr ""), last_updated := none,
    fields := fun _ => none }

/-- The course rawExample normalises to. -/
def cExample : NormCourse :=
  { id := "abc", version := 1, date_created := "2026-10-11",
    last_updated := "2026-10-11", values := defaultCourseValues }

/-- C10 witness: the normalisation theorem applied to rawExample with every
hypothesis discharged by evaluation. -/
theorem C10_loadCourses_normalisation_witness :
    (normalizeCourseItem "2026-10-11" rawExample).isSome = true ∧
    cExample.date_created ≠ "" ∧
    cExample.last_updated ≠ "" ∧
    getField cExample.values CField.hands_on = "Unknown" ∧
    getField cExample.values CField.length = "0 Hours" ∧
    cExample.version = 1 ∧
    cExample ∈ loadCoursesNormalize "2026-10-11" [rawExample] := by
  obtain ⟨h1, h2, h3⟩ :=
    C10_loadCourses_normalisation "2026-10-11" [rawExample] rawExample cExample (by decide)
  have hEq : normalizeCourseItem "2026-10-11" rawExample = some cExample := rfl
  obtain ⟨hid, hidne, hdc, hlu, hfld, hvnone, hvnull, hvnum, hvstr⟩ := h2 hEq
  refine ⟨h1.mpr ⟨"abc", rfl, by decide⟩, hdc, hlu, ?_, ?_, ?_, ?_⟩
  · rw [hfld CField.hands_on]
    rfl
  · rw [hfld CField.length]
    rfl
  · exact hvstr "x1" rfl (by decide)
  · exact h3.mpr ⟨rawExample, by simp, hEq⟩

/-! ## Backend repository, modelled from the specification

The backend (backend/app/repository.py and friends per the README) is not
among the provided sources; the definitions below are built from the
specification text of sections 3, 4.1 and 7 and are marked accordingly. -/

/-- Metadata fields of a stored course record (the enrichment schema's field
set, without the link key). -/
inductive MField where
  | provider | course_name | summary | track | platform
  | hands_on | skill_level | difficulty | length | evidence_of_completion
deriving DecidableEq

/-- Modelled from the spec: a stored course record - link as the unique key,
the metadata fields, the optimistic-concurrency version and the two
timestamps (section 3). -/
structure StoredCourse where
  link : String
  meta : MField → String
  version : Nat
  date_created : String
  last_updated : String

/-- Modelled from the spec: the error taxonomy of section 7. -/
inductive RepoError where
  | duplicateKey | notFound | versionConflict | fetchError
  | schemaViolation | upstreamUnavailable | validationError
deriving DecidableEq

/-- Modelled from the spec: the HTTP status mapping of section 7
(DuplicateKey and VersionConflict to 409, NotFound to 404, ValidationError
to 422, the remaining upstream failures to 502). -/
def httpStatusOf : RepoError → Nat
  | .duplicateKey => 409
  | .notFound => 404
  | .versionConflict => 409
  | .validationError => 422
  | .fetchError => 502
  | .schemaViolation => 502
  | .upstreamUnavailable => 502

/-- Modelled from the spec: lookup of the record with a given link. -/
def findByLink (st : List StoredCourse) (link : String) : Option StoredCourse :=
  st.find? (fun r => r.link == link)

/-- Modelled from the spec: create(record) fails with DuplicateKey when the
link already exists and leaves the store as it was; otherwise it assigns
date_created and last_updated, the default version 1, and appends
(section 4.1). -/
def create (st : List StoredCourse) (link : String) (meta : MField → String) (now : String) :
    Option RepoError × List StoredCourse :=
  match findByLink st link with
  | some _ => (some .duplicateKey, st)
  | none => (none, st ++
      [{ link := link, meta := meta, version := 1, date_created := now, last_updated := now }])

/-- Modelled from the spec: the merge rule of upsertFromEnrichment - an
"Unknown" enrichment result never replaces the existing value; any other
result is taken. -/
def mergeField (existing incoming : String) : String :=
  if incoming = "Unknown" then existing else incoming

/-- Modelled from the spec: merging an enrichment field set into an existing
record, refreshing last_updated. -/
def mergeEnrichment (r : StoredCourse) (meta : MField → String) (now : String) : StoredCourse :=
  { r with meta := fun m => mergeField (r.meta m) (meta m), last_updated := now }

/-- Modelled from the spec: upsertFromEnrichment(link, fields) merges the
model-derived fields into the record matched by link, or creates a new
record when the link is absent (section 4.1). -/
def upsertFromEnrichment (st : List StoredCourse) (link : String) (meta : MField → String)
    (now : String) : List StoredCourse :=
  match findByLink st link with
  | some _ => st.map (fun x => if x.link == link then mergeEnrichment x meta now else x)
  | none => st ++
      [{ link := link, meta := meta, version := 1, date_created := now, last_updated := now }]

/-- Modelled from the spec: update(link, record, expectedVersion?) fails with
NotFound when no record matches; with versioning enabled, a stale
expectedVersion fails with VersionConflict and the store is untouched;
otherwise the record is replaced, its version incremented and last_updated
refreshed (section 4.1). -/
def update (st : List StoredCourse) (link : String) (meta : MField → String)
    (expectedVersion : Option Nat) (now : String) : Option RepoError × List StoredCourse :=
  match findByLink st link with
  | none => (some .notFound, st)
  | some r =>
    match expectedVersion with
    | some v =>
      if v ≠ r.version then (some .versionConflict, st)
      else (none, st.map (fun x =>
        if x.link == link then { x with meta := meta, version := x.version + 1, last_updated := now }
        else x))
    | none => (none, st.map (fun x =>
        if x.link == link then { x with meta := meta, last_updated := now } else x))

theorem findByLink_eq_none (st : List StoredCourse) (link : String)
    (h : ∀ r ∈ st, r.link ≠ link) : findByLink st link = none := by
  rw [findByLink, List.find?_eq_none]
  intro x hx
  simp [h x hx]

theorem findByLink_isSome (st : List StoredCourse) (link : String)
    (h : ∃ r ∈ st, r.link = link) : (findByLink st link).isSome = true := by
  rw [findByLink, List.find?_isSome]
  obtain ⟨r, hr, he⟩ := h
  exact ⟨r, hr, by simp [he]⟩

theorem mergeField_ne_unknown (e i : String) (h : e ≠ "Unknown") :
    mergeField e i ≠ "Unknown" := by
  unfold mergeField
  by_cases hi : i = "Unknown"
  · simpa [hi] using h
  · simp [hi]

theorem mergeField_update (e i : String) (hi : i ≠ "Unknown") : mergeField e i = i := by
  simp [mergeField, hi]

/-- C2: creating a record whose link already exists fails with DuplicateKey
and leaves the store unchanged (in particular a store holding exactly one
record with that link still holds exactly one); creating a record with a
fresh link succeeds, appends it, and the appended record carries version 1
and both timestamps set to the creation time. -/
theorem C2_create_duplicate_key (st : List StoredCourse) (link : String)
    (meta : MField → String) (now : String) :
    ((∃ r ∈ st, r.link = link) →
      create st link meta now = (some RepoError.duplicateKey, st) ∧
      ((st.filter (fun r => r.link == link)).length = 1 →
        (((create st link meta now).2).filter (fun r => r.link == link)).length = 1)) ∧
    ((∀ r ∈ st, r.link ≠ link) →
      (create st link meta now).1 = none ∧
      (create st link meta now).2 = st ++
        [{ link := link, meta := meta, version := 1, date_created := now, last_updated := now }]) := by
  constructor
  · intro h
    have hfind := findByLink_isSome st link h
    have hc : create st link meta now = (some RepoError.duplicateKey, st) := by
      unfold create
      cases hf : findByLink st link with
      | none => rw [hf] at hfind; cases hfind
      | some r => rfl
    refine ⟨hc, ?_⟩
    intro h1
    rw [hc]
    exact h1
  · intro h
    have hfind := findByLink_eq_none st link h
    unfold create
    rw [hfind]
    exact ⟨rfl, rfl⟩

/-- Concrete metadata function for the repository witnesses. -/
def metaUnknown : MField → String := fun _ => "Unknown"

/-- Concrete stored record for the repository witnesses. -/
def rStored : StoredCourse :=
  { link := "https://x.test/c1", meta := metaUnknown, version := 1,
    date_created := "t0", last_updated := "t0" }

/-- C2 witness: the create theorem applied to a one-record store holding the
link (duplicate branch) and to the empty store (append branch). -/
theorem C2_create_duplicate_key_witness :
    create [rStored] "https://x.test/c1" metaUnknown "t1"
      = (some RepoError.duplicateKey, [rStored]) ∧
    (((create [rStored] "https://x.test/c1" metaUnknown "t1").2).filter
      (fun r => r.link == "https://x.test/c1")).length = 1 ∧
    (create [] "https://x.test/c1" metaUnknown "t1").1 = none ∧
    (create [] "https://x.test/c1" metaUnknown "t1").2 =
      [{ link := "https://x.test/c1", meta := metaUnknown, version := 1,
         date_created := "t1", last_updated := "t1" }] := by
  obtain ⟨hdup, _⟩ :=
    C2_create_duplicate_key [rStored] "https://x.test/c1" metaUnknown "t1"
  obtain ⟨h1, h2⟩ := hdup ⟨rStored, by simp, rfl⟩
  obtain ⟨_, hfresh⟩ := C2_create_duplicate_key [] "https://x.test/c1" metaUnknown "t1"
  obtain ⟨h3, h4⟩ := hfresh (by simp)
  exact ⟨h1, h2 rfl, h3, by rw [h4]; rfl⟩

/-- C3: enriching the link of an existing record replaces every stored
record carrying that link by its field-merge, and the merge never turns a
non-"Unknown" stored field into "Unknown" while an "Unknown" stored field
does take any non-"Unknown" enrichment value; enriching a link with no
existing record appends a fresh record with that link. -/
theorem C3_upsert_from_enrichment (st : List StoredCourse) (link : String)
    (meta : MField → String) (now : String) :
    ((∃ r ∈ st, r.link = link) →
      ∀ x ∈ st, x.link = link →
        mergeEnrichment x meta now ∈ upsertFromEnrichment st link meta now ∧
        ∀ m, (x.meta m ≠ "Unknown" → (mergeEnrichment x meta now).meta m ≠ "Unknown") ∧
             (x.meta m = "Unknown" → meta m ≠ "Unknown" →
               (mergeEnrichment x meta now).meta m = meta m)) ∧
    ((∀ r ∈ st, r.link ≠ link) →
      upsertFromEnrichment st link meta now = st ++
        [{ link := link, meta := meta, version := 1, date_created := now, last_updated := now }]) := by
  constructor
  · intro h x hx hxl
    have hfind := findByLink_isSome st link h
    have hmap : upsertFromEnrichment st link meta now
        = st.map (fun y => if y.link == link then mergeEnrichment y meta now else y) := by
      unfold upsertFromEnrichment
      cases hf : findByLink st link with
      | none => rw [hf] at hfind; cases hfind
      | some r => rfl
    constructor
    · rw [hmap]
      have : (fun y => if y.link == link then mergeEnrichment y meta now else y) x
          = mergeEnrichment x meta now := by
        simp [hxl]
      rw [← this]
      exact List.mem_map_of_mem _ hx
    · intro m
      constructor
      · intro hne
        show mergeField (x.meta m) (meta m) ≠ "Unknown"
        exact mergeField_ne_unknown _ _ hne
      · intro _ hincoming
        show mergeField (x.meta m) (meta m) = meta m
        exact mergeField_update _ _ hincoming
  · intro h
    have hfind := findByLink_eq_none st link h
    unfold upsertFromEnrichment
    rw [hfind]

/-- Concrete metadata of the stored record for the C3 witness: a known skill
level, everything else "Unknown". -/
def metaNovice : MField → String
  | .skill_level => "Novice"
  | _ => "Unknown"

/-- Concrete enrichment result for the C3 witness: an "Unknown" skill level
(which must not clobber "Novice") and a known difficulty (which must land). -/
def metaEnrich : MField → String
  | .difficulty => "Easy"
  | _ => "Unknown"

/-- Concrete stored record for the C3 witness. -/
def rNovice : StoredCourse :=
  { link := "https://x.test/c1", meta := metaNovice, version := 1,
    date_created := "t0", last_updated := "t0" }

/-- C3 witness: the upsert theorem applied to a one-record store (field
preservation and field adoption) and to the empty store (creation). -/
theorem C3_upsert_from_enrichment_witness :
    mergeEnrichment rNovice metaEnrich "t1"
      ∈ upsertFromEnrichment [rNovice] "https://x.test/c1" metaEnrich "t1" ∧
    (mergeEnrichment rNovice metaEnrich "t1").meta MField.skill_level ≠ "Unknown" ∧
    (mergeEnrichment rNovice metaEnrich "t1").meta MField.difficulty = "Easy" ∧
    upsertFromEnrichment [] "https://x.test/c1" metaEnrich "t1" =
      [{ link := "https://x.test/c1", meta := metaEnrich, version := 1,
         date_created := "t1", last_updated := "t1" }] := by
  obtain ⟨hup, hcreate⟩ :=
    C3_upsert_from_enrichment [rNovice] "https://x.test/c1" metaEnrich "t1"
  obtain ⟨hmem, hfields⟩ := hup ⟨rNovice, by simp, rfl⟩ rNovice (by simp) rfl
  obtain ⟨_, hcreate0⟩ :=
    C3_upsert_from_enrichment [] "https://x.test/c1" metaEnrich "t1"
  refine ⟨hmem, ?_, ?_, ?_⟩
  · exact (hfields MField.skill_level).1 (by decide)
  · exact (hfields MField.difficulty).2 rfl (by decide)
  · rw [hcreate0 (by simp)]
    rfl

/-- C4: an update naming a link with no matching record fails with NotFound
and the store is untouched; with versioning enabled, an expectedVersion
different from the stored version fails with VersionConflict, the store -
including the stored version - is untouched, and VersionConflict surfaces as
HTTP 409 (NotFound as 404). -/
theorem C4_update_version_conflict (st : List StoredCourse) (link : String)
    (meta : MField → String) (expectedVersion : Option Nat) (now : String) :
    ((∀ r ∈ st, r.link ≠ link) →
      update st link meta expectedVersion now = (some RepoError.notFound, st)) ∧
    (∀ r v, findByLink st link = some r → expectedVersion = some v → v ≠ r.version →
      update st link meta expectedVersion now = (some RepoError.versionConflict, st)) ∧
    httpStatusOf RepoError.versionConflict = 409 ∧
    httpStatusOf RepoError.notFound = 404 := by
  refine ⟨?_, ?_, rfl, rfl⟩
  · intro h
    have hfind := findByLink_eq_none st link h
    unfold update
    rw [hfind]
  · intro r v hfind hev hne
    unfold update
    rw [hfind, hev]
    dsimp only
    rw [if_pos hne]

/-- Concrete stored record at version 2 for the C4 witness. -/
def rVersionTwo : StoredCourse :=
  { link := "https://x.test/c1", meta := metaUnknown, version := 2,
    date_created := "t0", last_updated := "t0" }

/-- C4 witness: the update theorem applied to an empty store (NotFound) and
to a store holding version 2 while the caller expects version 1
(VersionConflict, surfaced as 409). -/
theorem C4_update_version_conflict_witness :
    update [] "https://x.test/c1" metaUnknown (some 1) "t1"
      = (some RepoError.notFound, []) ∧
    update [rVersionTwo] "https://x.test/c1" metaUnknown (some 1) "t1"
      = (some RepoError.versionConflict, [rVersionTwo]) ∧
    httpStatusOf RepoError.versionConflict = 409 := by
  obtain ⟨hnf, _, _, _⟩ :=
    C4_update_version_conflict [] "https://x.test/c1" metaUnknown (some 1) "t1"
  obtain ⟨_, hvc, hstatus, _⟩ :=
    C4_update_version_conflict [rVersionTwo] "https://x.test/c1" metaUnknown (some 1) "t1"
  exact ⟨hnf (by simp), hvc rVersionTwo 1 rfl rfl (by decide), hstatus⟩
